import Mathlib

/-!
# Verification of the MCP gateway coordination service

Shallow embedding of the coordination core of the
`agent-battle-command-center` repository (package `mcp-gateway`):
the Redis cache/lock adapter, the file resource provider, the
file-operation and collaboration tools, the log resource provider, the
task resource provider, and the PostgreSQL replication engine.

Conventions of the embedding:
* Time is a `Nat` clock (`now`); a Redis TTL of `ex` seconds set at time
  `now` makes the key live while `now' < now + ex`.
* Redis values are kept typed per key family (the key prefixes
  `lock:file:*`, `task:*`, `task:*:files`, `logs:*` are disjoint in the
  source, so separate fields of the state are a faithful rendering of the
  single keyspace).  JSON serialisation (`json.dumps`/`json.loads`) is a
  bijection between the stored dictionaries and their wire form, so the
  embedding stores the structured values directly.
* Python exceptions become `Except PyErr`; the tool layer catches them and
  returns result records with `success := false` and `error := some msg`,
  exactly as the source's `except` blocks build
  `{"success": False, "error": str(e)}`.
-/

/-- Python exception classes raised by the gateway code, with their
`str(e)` message. -/
inductive PyErr where
  | valueError (msg : String)
  | fileNotFoundError (msg : String)
  | fileLockError (msg : String)
  | attributeError (msg : String)
  deriving DecidableEq, Repr

/-- `str(e)` for an exception: the message it was constructed with. -/
def PyErr.msg : PyErr → String
  | .valueError m => m
  | .fileNotFoundError m => m
  | .fileLockError m => m
  | .attributeError m => m

/-- A task row as selected by the gateway's SQL queries
(`id, title, description, status, assigned_agent_id, final_complexity,
created_at, updated_at`).  Timestamps are `Nat` instants (the source
converts them to ISO strings with the injective `isoformat` before
caching, a pure rendering that the claims never inspect); the float
`final_complexity` is carried opaquely in its serialised form. -/
structure TaskRow where
  id : String
  title : String
  description : String
  status : String
  assigned_agent_id : Option String
  final_complexity : Option String
  created_at : Nat
  updated_at : Nat
  deriving DecidableEq, Repr

/-- A log/step dictionary: string keys to opaque JSON values (carried in
their serialised form).  Python dict insertion appends a new key at the
end; lookup finds the unique binding. -/
abbrev Entry : Type := List (String × String)

/-- Dictionary lookup (`step["k"]` / `"k" in step`). -/
def Entry.find (e : Entry) (k : String) : Option String :=
  match e with
  | [] => none
  | (k', v) :: rest => if k' = k then some v else Entry.find rest k

/-- A message published on a Redis channel (the structured payload the
source passes through `json.dumps`). -/
inductive PubMsg where
  | fileUpdate (task_id path action : String)
  | lockEvent (locked : Bool) (by_task path : String)
  | logEntry (e : Entry)
  | presence (event agent_id task_id : String) (timestamp : Nat)
  deriving DecidableEq

/-- State of the Redis store, split by the disjoint key families the
gateway uses.  Every value family carries its expiry instant where the
source sets one. -/
structure RedisState where
  /-- plain string keys (`lock:file:{path}`), with optional expiry. -/
  kv : String → Option (String × Option Nat)
  /-- task cache (`task:{id}`), always set with `SETEX` (expiry). -/
  taskKv : String → Option (TaskRow × Nat)
  /-- lists (`logs:{taskId}`), head = most recently pushed. -/
  lists : String → List Entry
  /-- expiry of a list key, when `EXPIRE` has been called. -/
  listExp : String → Option Nat
  /-- sets (`task:{id}:files`, `collaboration:{taskId}`). -/
  sets : String → List String
  /-- expiry of a set key. -/
  setExp : String → Option Nat
  /-- published `(channel, message)` events, most recent first. -/
  pubs : List (String × PubMsg)

/-- The empty Redis store. -/
def RedisState.empty : RedisState :=
  { kv := fun _ => none
    taskKv := fun _ => none
    lists := fun _ => []
    listExp := fun _ => none
    sets := fun _ => []
    setExp := fun _ => none
    pubs := [] }

/-- `RedisAdapter.get` (redis `GET`): value of a live string key, `None`
if absent or expired. -/
def RedisState.get (s : RedisState) (now : Nat) (key : String) : Option String :=
  match s.kv key with
  | none => none
  | some (v, none) => some v
  | some (v, some e) => if now < e then some v else none

/-- `RedisAdapter.set` (redis `SET` with optional `NX`/`EX`): returns
whether the value was set, plus the new state.  With `nx`, the set
succeeds only if the key is absent (an expired key counts as absent). -/
def RedisState.set (s : RedisState) (now : Nat) (key value : String)
    (nx : Bool) (ex : Option Nat) : Bool × RedisState :=
  if nx && (s.get now key).isSome then (false, s)
  else
    (true,
      { s with kv := fun k => if k = key then some (value, ex.map (now + ·)) else s.kv k })

/-- `RedisAdapter.delete` (redis `DEL`) on a string key. -/
def RedisState.del (s : RedisState) (key : String) : RedisState :=
  { s with kv := fun k => if k = key then none else s.kv k }

/-- `RedisAdapter.publish`. -/
def RedisState.publish (s : RedisState) (channel : String) (m : PubMsg) : RedisState :=
  { s with pubs := (channel, m) :: s.pubs }

/-- `RedisAdapter.get_task`: cached task for `task:{task_id}` if live. -/
def RedisState.get_task (s : RedisState) (now : Nat) (task_id : String) : Option TaskRow :=
  match s.taskKv ("task:" ++ task_id) with
  | none => none
  | some (t, e) => if now < e then some t else none

/-- `settings.task_cache_ttl` (1 hour). -/
def task_cache_ttl : Nat := 3600

/-- `settings.sync_batch_size`. -/
def sync_batch_size : Nat := 100

/-- `RedisAdapter.set_task` (`SETEX task:{id} ttl json`), default TTL
`settings.task_cache_ttl`. -/
def RedisState.set_task (s : RedisState) (now : Nat) (task_id : String)
    (t : TaskRow) (ttl : Nat := task_cache_ttl) : RedisState :=
  { s with taskKv := fun k => if k = "task:" ++ task_id then some (t, now + ttl) else s.taskKv k }

/-- `RedisAdapter.get_lock_owner`: `GET lock:file:{file_path}`. -/
def RedisState.get_lock_owner (s : RedisState) (now : Nat) (file_path : String) :
    Option String :=
  s.get now ("lock:file:" ++ file_path)

/-- `RedisAdapter.sadd` followed by the membership view: Redis sets hold
each member once. -/
def RedisState.sadd (s : RedisState) (key value : String) : RedisState :=
  { s with
    sets := fun k =>
      if k = key then (if value ∈ s.sets key then s.sets key else value :: s.sets key)
      else s.sets k }

/-- `RedisAdapter.expire` on a set key (`EXPIRE key seconds`). -/
def RedisState.expireSet (s : RedisState) (now : Nat) (key : String) (seconds : Nat) :
    RedisState :=
  { s with setExp := fun k => if k = key then some (now + seconds) else s.setExp k }

/-- `RedisAdapter.add_task_file`: `SADD task:{id}:files path` then
`EXPIRE` with the cache TTL. -/
def RedisState.add_task_file (s : RedisState) (now : Nat) (task_id file_path : String) :
    RedisState :=
  (s.sadd ("task:" ++ task_id ++ ":files") file_path).expireSet now
    ("task:" ++ task_id ++ ":files") task_cache_ttl

/-- `RedisAdapter.get_task_files` (`SMEMBERS task:{id}:files`), empty if
the key expired. -/
def RedisState.get_task_files (s : RedisState) (now : Nat) (task_id : String) :
    List String :=
  let key := "task:" ++ task_id ++ ":files"
  match s.setExp key with
  | none => s.sets key
  | some e => if now < e then s.sets key else []

/-- `RedisAdapter.lpush` on a list key. -/
def RedisState.lpush (s : RedisState) (key : String) (e : Entry) : RedisState :=
  { s with lists := fun k => if k = key then e :: s.lists k else s.lists k }

/-- `RedisAdapter.expire` on a list key. -/
def RedisState.expireList (s : RedisState) (now : Nat) (key : String) (seconds : Nat) :
    RedisState :=
  { s with listExp := fun k => if k = key then some (now + seconds) else s.listExp k }

/-- A live view of a list key (an expired key is gone: `LRANGE` on it
returns the empty list). -/
def RedisState.liveList (s : RedisState) (now : Nat) (key : String) : List Entry :=
  match s.listExp key with
  | none => s.lists key
  | some e => if now < e then s.lists key else []

/-- `RedisAdapter.get_logs`: `LRANGE logs:{task_id} 0 (limit-1)`,
most recent first, default limit 100. -/
def RedisState.get_logs (s : RedisState) (now : Nat) (task_id : String)
    (limit : Nat := 100) : List Entry :=
  (s.liveList now ("logs:" ++ task_id)).take limit

/-- Python rendering of an optional string in an f-string
(`None` prints as `"None"`). -/
def pyShow : Option String → String
  | some o => o
  | none => "None"

/-! ## File operation tools (`tools/file_ops.py`) -/

/-- Result dictionary returned by the file-operation tools: the
`{"success": ..., "error": ...}` shape, with the optional `locked` and
`content` fields some tools add. -/
structure ToolResult where
  success : Bool
  error : Option String := none
  locked : Option Bool := none
  content : Option String := none
  deriving DecidableEq, Repr

/-- `FileOperationTools.claim_file(task_id, path, timeout_sec=60)`:
`SET lock:file:{path} task_id NX EX timeout`; on failure reads the
current owner and reports `File locked by task {owner}`; on success
broadcasts the lock event. -/
def claim_file (s : RedisState) (now : Nat) (task_id path : String)
    (timeout_sec : Nat := 60) : ToolResult × RedisState :=
  let lock_key := "lock:file:" ++ path
  let (acquired, s1) := s.set now lock_key task_id true (some timeout_sec)
  if !acquired then
    let owner := s1.get now lock_key
    ({ success := false, error := some ("File locked by task " ++ pyShow owner),
       locked := some false }, s1)
  else
    let s2 := s1.publish ("locks:" ++ path) (.lockEvent true task_id path)
    ({ success := true, locked := some true }, s2)

/-- `FileOperationTools.release_file(task_id, path)`: reads the owner of
`lock:file:{path}`; if the caller is not the owner raises `FileLockError`
(message `Cannot release lock owned by task {owner}`, or `Lock not held`
when the owner is absent/falsy), caught into a failure result; otherwise
deletes the key and broadcasts the release. -/
def release_file (s : RedisState) (now : Nat) (task_id path : String) :
    ToolResult × RedisState :=
  let lock_key := "lock:file:" ++ path
  let owner := s.get now lock_key
  if owner ≠ some task_id then
    let msg := match owner with
      | some o => if o = "" then "Lock not held"
                  else "Cannot release lock owned by task " ++ o
      | none => "Lock not held"
    ({ success := false, error := some msg }, s)
  else
    let s1 := s.del lock_key
    let s2 := s1.publish ("locks:" ++ path) (.lockEvent false task_id path)
    ({ success := true, locked := some false }, s2)

/-! ## Executable string primitives

Python string operations used by the gateway (`split`, slicing,
`startswith`, concatenation) are modelled over the character list of the
string, by structural recursion, so that every definition reduces inside
the kernel. -/

/-- `str.split(sep)` on the character list (single-character separator,
as the gateway always splits on `"/"`).  Matches Python:
`"".split("/") = [""]`, `"/".split("/") = ["", ""]`. -/
def splitChars (sep : Char) : List Char → List (List Char)
  | [] => [[]]
  | c :: rest =>
    if c = sep then [] :: splitChars sep rest
    else
      match splitChars sep rest with
      | [] => [[c]]
      | l :: ls => (c :: l) :: ls

/-- `str.split("/")` returning strings. -/
def pySplitSlash (s : String) : List String :=
  (splitChars '/' s.data).map (fun l => ⟨l⟩)

/-- `s[n:]`: Python slicing by code points. -/
def pyDrop (s : String) (n : Nat) : String := ⟨s.data.drop n⟩

/-- `s.startswith(pre)`. -/
def pyStartsWith (s pre : String) : Bool := pre.data.isPrefixOf s.data

/-- `"/".join(parts)`. -/
def joinSlash : List String → String
  | [] => ""
  | [p] => p
  | p :: rest => p ++ "/" ++ joinSlash rest

/-! ## Path resolution (`pathlib` semantics used by `resources/files.py`)

The provider computes `full_path = workspace_root / "tasks" / path`, then
checks `str(full_path.resolve()).startswith(str(workspace_root.resolve()))`.
Paths are modelled as lists of components under the filesystem root; with
no symlinks, `resolve()` normalises `.`/empty components and makes `..`
pop one component (popping at the root stays at the root, as in POSIX). -/

/-- One step of path normalisation: fold a component onto the resolved
prefix. -/
def stepComponent (acc : List String) (c : String) : List String :=
  if c = "" ∨ c = "." then acc
  else if c = ".." then acc.dropLast
  else acc ++ [c]

/-- `(base / rel).resolve()`: Python `Path` join replaces the base when
`rel` is absolute, otherwise appends; resolution folds the components. -/
def resolveJoined (base : List String) (rel : String) : List String :=
  if pyStartsWith rel "/" then (pySplitSlash rel).foldl stepComponent []
  else (pySplitSlash rel).foldl stepComponent base

/-- `str()` of a resolved absolute path. -/
def renderPath (comps : List String) : String :=
  "/" ++ joinSlash comps

/-- `self.workspace_root = Path("/app/workspace")`, already canonical. -/
def workspace_root : List String := ["app", "workspace"]

/-- The directory the provider actually resolves under:
`workspace_root / "tasks"`. -/
def tasks_root : List String := ["app", "workspace", "tasks"]

/-- The provider's security check:
`str(full.resolve()).startswith(str(workspace_root.resolve()))`. -/
def passesTraversalCheck (full : List String) : Bool :=
  pyStartsWith (renderPath full) (renderPath workspace_root)

/-- The property the spec asks for: the resolved path stays below the
workspace root (component-wise). -/
def underWorkspaceRoot (full : List String) : Bool :=
  workspace_root.isPrefixOf full

/-- The workspace filesystem: content of the file at a resolved absolute
path (directories are implicit; `mkdir(parents=True, exist_ok=True)`
always succeeds in this model). -/
def Fs : Type := List String → Option String

/-- The empty filesystem. -/
def Fs.empty : Fs := fun _ => none

/-! ## File resource provider (`resources/files.py`) -/

/-- Result of `FileResourceProvider.write_file`:
`{"success": True, "path": path, "bytes": len(content)}`. -/
structure WriteFileResult where
  path : String
  bytes : Nat
  deriving DecidableEq, Repr

/-- `FileResourceProvider.write_file(task_id, path, content)`: resolves
`workspace_root / "tasks" / path` (note: the task id does not enter the
location), runs the traversal check, creates parents, writes the file,
then records the path in the task's file set. -/
def write_file (s : RedisState) (fs : Fs) (now : Nat)
    (task_id path content : String) :
    Except PyErr (WriteFileResult × RedisState × Fs) :=
  let full := resolveJoined tasks_root path
  if !passesTraversalCheck full then
    .error (.valueError ("Path traversal attempt detected: " ++ path))
  else
    let fs' : Fs := fun q => if q = full then some content else fs q
    let s' := s.add_task_file now task_id path
    .ok ({ path := path, bytes := content.length }, s', fs')

/-- `FileResourceProvider.read_resource(uri)`: parses
`workspace://{taskId}/{path}` (split at the first `/` after the scheme),
validates that the task exists in the cache, resolves
`workspace_root / "tasks" / file_path`, runs the traversal check, and
returns the content if the file exists. -/
def read_resource (s : RedisState) (fs : Fs) (now : Nat) (uri : String) :
    Except PyErr String :=
  if !pyStartsWith uri "workspace://" then
    .error (.valueError ("Invalid workspace URI: " ++ uri))
  else
    match pySplitSlash (pyDrop uri 12) with
    | [] => .error (.valueError ("Invalid workspace URI format: " ++ uri))
    | [_] => .error (.valueError ("Invalid workspace URI format: " ++ uri))
    | task_id :: rest =>
      let file_path := joinSlash rest
      if (s.get_task now task_id).isNone then
        .error (.valueError ("Task not found: " ++ task_id))
      else
        let full := resolveJoined tasks_root file_path
        if !passesTraversalCheck full then
          .error (.valueError ("Path traversal attempt detected: " ++ file_path))
        else
          match fs full with
          | none => .error (.fileNotFoundError ("File not found: " ++ file_path))
          | some content => .ok content

/-- `FileOperationTools.file_read(task_id, path)`: builds the URI,
delegates to the provider, catches any exception into
`{"success": False, "error": str(e)}`. -/
def file_read (s : RedisState) (fs : Fs) (now : Nat) (task_id path : String) :
    ToolResult :=
  match read_resource s fs now ("workspace://" ++ task_id ++ "/" ++ path) with
  | .ok content => { success := true, content := some content }
  | .error e => { success := false, error := some e.msg }

/-- `FileOperationTools.file_write(task_id, path, content)`: fails with
`FileLockError` if the path is locked by a different task; otherwise
writes through the provider and broadcasts a `file:updates` event.  Any
exception is caught into a failure result. -/
def file_write (s : RedisState) (fs : Fs) (now : Nat)
    (task_id path content : String) : ToolResult × RedisState × Fs :=
  let lock_owner := s.get_lock_owner now path
  match lock_owner with
  | some o =>
    if o ≠ task_id then
      ({ success := false, error := some ("File locked by task " ++ o) }, s, fs)
    else
      match write_file s fs now task_id path content with
      | .error e => ({ success := false, error := some e.msg }, s, fs)
      | .ok (_, s', fs') =>
        let s2 := s'.publish "file:updates" (.fileUpdate task_id path "write")
        ({ success := true }, s2, fs')
  | none =>
    match write_file s fs now task_id path content with
    | .error e => ({ success := false, error := some e.msg }, s, fs)
    | .ok (_, s', fs') =>
      let s2 := s'.publish "file:updates" (.fileUpdate task_id path "write")
      ({ success := true }, s2, fs')

/-! ## Collaboration tools and log resources
(`tools/collaboration.py`, `resources/logs.py`) -/

/-- `datetime.utcnow().isoformat()`: an injective rendering of the
current instant (the claims only ever test presence/equality). -/
def isoformat (now : Nat) : String := toString now

/-- Result of `CollaborationTools.log_step`: `{"success": True,
"task_id": ..., "step": ..., **result}` where the provider result
contributes `success`/`task_id` again. -/
structure LogStepResult where
  success : Bool
  task_id : String
  step : Entry
  deriving DecidableEq

/-- `LogResourceProvider.append_log(task_id, step)`: `LPUSH
logs:{task_id}`, `EXPIRE` 3600, then publish on
`logs:{task_id}:stream`. -/
def append_log (s : RedisState) (now : Nat) (task_id : String) (step : Entry) :
    RedisState :=
  let log_key := "logs:" ++ task_id
  let s1 := s.lpush log_key step
  let s2 := s1.expireList now log_key 3600
  s2.publish ("logs:" ++ task_id ++ ":stream") (.logEntry step)

/-- `CollaborationTools.log_step(task_id, step)`: stamps `timestamp` and
`task_id` if absent (Python dict assignment appends the new key), then
appends through the provider. -/
def log_step (s : RedisState) (now : Nat) (task_id : String) (step : Entry) :
    LogStepResult × RedisState :=
  let step1 := if (Entry.find step "timestamp").isSome then step
               else step ++ [("timestamp", isoformat now)]
  let step2 := if (Entry.find step1 "task_id").isSome then step1
               else step1 ++ [("task_id", task_id)]
  let s' := append_log s now task_id step2
  ({ success := true, task_id := task_id, step := step2 }, s')

/-- What `LogResourceProvider.read_resource` returns (the JSON payload,
before serialisation): historical logs or a stream descriptor. -/
inductive LogsView where
  | hist (task_id : String) (logs : List Entry)
  | stream (task_id channel : String)
  deriving DecidableEq

/-- `LogResourceProvider.read_resource(uri)`: parses
`logs://{taskId}[/stream]`; one component means historical logs via
`get_logs` (default limit 100); `/stream` returns the channel
descriptor. -/
def logs_read_resource (s : RedisState) (now : Nat) (uri : String) :
    Except PyErr LogsView :=
  if !pyStartsWith uri "logs://" then
    .error (.valueError ("Invalid log URI: " ++ uri))
  else
    match pySplitSlash (pyDrop uri 7) with
    | [task_id] => .ok (.hist task_id (s.get_logs now task_id))
    | [task_id, sub] =>
      if sub = "stream" then
        .ok (.stream task_id ("logs:" ++ task_id ++ ":stream"))
      else .error (.valueError ("Invalid log URI format: " ++ uri))
    | _ => .error (.valueError ("Invalid log URI format: " ++ uri))

/-! ## Task resource provider (`resources/tasks.py`) -/

/-- A resource descriptor built by `TaskResourceProvider.list_resources`. -/
structure ResourceDesc where
  uri : String
  name : String
  description : String
  mimeType : String
  deriving DecidableEq

/-- The methods the `RedisAdapter` class defines (transcribed from
`adapters/redis.py`); Python attribute lookup on the adapter succeeds
exactly for these names. -/
def redisAdapterMethodNames : List String :=
  ["connect", "close", "get_task", "set_task", "delete_task",
   "get_task_files", "add_task_file", "get_lock_owner", "set", "get",
   "delete", "get_logs", "lpush", "expire", "publish", "pubsub",
   "smembers", "sadd", "srem"]

/-- The `keys` attribute of the Redis adapter, as resolved by Python
attribute lookup: `none`, because no method named `keys` appears in
`redisAdapterMethodNames` (the adapter never defines one), so
`self.redis.keys(...)` raises `AttributeError`. -/
def redisKeysMethod : Option (RedisState → String → List String) := none

/-- `task_key.count(":")`. -/
def countColons (s : String) : Nat := s.data.countP (· = ':')

/-- `task_key.split(":", 1)[1]`: the part after the first colon. -/
def afterFirstColon (s : String) : String :=
  ⟨(s.data.dropWhile (· ≠ ':')).drop 1⟩

/-- The loop body of `TaskResourceProvider.list_resources`: for each key,
skip keys with more than one colon (suffixed keys such as
`task:123:files`), re-read the task, skip evicted ones, and emit the
`state` and `files` descriptors. -/
def buildTaskResources (s : RedisState) (now : Nat) :
    List String → List ResourceDesc
  | [] => []
  | task_key :: rest =>
    if countColons task_key > 1 then buildTaskResources s now rest
    else
      let task_id := afterFirstColon task_key
      match s.get_task now task_id with
      | none => buildTaskResources s now rest
      | some task_data =>
        { uri := "tasks://" ++ task_id ++ "/state",
          name := "Task " ++ task_id ++ " State",
          description := "Current state of task: " ++ task_data.title,
          mimeType := "application/json" } ::
        { uri := "tasks://" ++ task_id ++ "/files",
          name := "Task " ++ task_id ++ " Files",
          description := "Files touched by task " ++ task_id,
          mimeType := "application/json" } ::
        buildTaskResources s now rest

/-- `TaskResourceProvider.list_resources()`: its first adapter call is
`await self.redis.keys("task:*")`, an attribute lookup on the adapter;
when the attribute is missing the call raises `AttributeError` before
any descriptor is built. -/
def list_resources (s : RedisState) (now : Nat) :
    Except PyErr (List ResourceDesc) :=
  match redisKeysMethod with
  | none => .error (.attributeError "'RedisAdapter' object has no attribute 'keys'")
  | some keysFn => .ok (buildTaskResources s now (keysFn s "task:*"))

/-! ## Replication engine (`adapters/postgres.py`) -/

/-- Durable-store state for the push path: an abstract collection of
rows (key/value pairs suffice for the claims, which never inspect SQL
semantics beyond success and effect). -/
def DbState : Type := List (String × String)

/-- Denotation of one queued `(sql, params)` write operation under
`conn.execute`: a transformation of the durable state that either
succeeds or raises (`none`). -/
def Stmt : Type := DbState → Option DbState

/-- The body of the push batch, with PostgreSQL transaction semantics:
each `conn.execute` failure is caught by the per-statement
`try/except` in `sync_to_postgres`, but the server-side transaction is
now aborted, so every later statement of the same transaction raises
(`current transaction is aborted`) and is likewise caught without
effect.  Returns the would-be final state and the aborted flag. -/
def runBatchStmts : List Stmt → DbState → Bool → DbState × Bool
  | [], cur, aborted => (cur, aborted)
  | stmt :: rest, cur, aborted =>
    if aborted then runBatchStmts rest cur true
    else
      match stmt cur with
      | some cur' => runBatchStmts rest cur' false
      | none => runBatchStmts rest cur true

/-- `async with conn.transaction(): ...` around the batch: since the
per-statement exceptions are caught, the block exits normally and asyncpg
issues `COMMIT`; PostgreSQL turns `COMMIT` of an aborted transaction into
`ROLLBACK`, so an aborted batch leaves the durable state unchanged. -/
def execBatchInTransaction (batch : List Stmt) (db : DbState) : DbState :=
  let (final, aborted) := runBatchStmts batch db false
  if aborted then db else final

/-- One iteration of `PostgresAdapter.sync_to_postgres`: if the write
queue is non-empty, drain up to `sync_batch_size` operations FIFO and
execute them as one transaction. -/
def sync_to_postgres_iteration (queue : List Stmt) (db : DbState)
    (batch_size : Nat := sync_batch_size) : List Stmt × DbState :=
  if queue.isEmpty then (queue, db)
  else (queue.drop batch_size, execBatchInTransaction (queue.take batch_size) db)

/-- Insert a row into a list sorted by `updated_at` descending. -/
def insertByDesc (r : TaskRow) : List TaskRow → List TaskRow
  | [] => [r]
  | x :: xs =>
    if x.updated_at ≤ r.updated_at then r :: x :: xs
    else x :: insertByDesc r xs

/-- `ORDER BY updated_at DESC`. -/
def sortByUpdatedDesc : List TaskRow → List TaskRow
  | [] => []
  | x :: xs => insertByDesc x (sortByUpdatedDesc xs)

/-- The pull query:
`SELECT ... FROM tasks WHERE updated_at > $1 ORDER BY updated_at DESC
LIMIT $2`. -/
def fetchChangedSince (db : List TaskRow) (w : Nat) (limit : Nat) :
    List TaskRow :=
  (sortByUpdatedDesc (db.filter (fun r => w < r.updated_at))).take limit

/-- The pull-loop state: the Redis cache plus the
`last_sync_timestamp` watermark. -/
structure SyncState where
  redis : RedisState
  last_sync_timestamp : Nat

/-- One iteration of `PostgresAdapter.sync_from_postgres`: fetch the rows
changed since the watermark (newest first, capped), write each into the
cache with the standard TTL, and set the watermark to `rows[0].updated_at`
(the newest fetched); when nothing was fetched the state is unchanged. -/
def sync_from_postgres_iteration (db : List TaskRow) (st : SyncState)
    (now : Nat) (batch_size : Nat := sync_batch_size) : SyncState :=
  let rows := fetchChangedSince db st.last_sync_timestamp batch_size
  match rows with
  | [] => st
  | r0 :: _ =>
    { redis := rows.foldl (fun s r => s.set_task now r.id r) st.redis
      last_sync_timestamp := r0.updated_at }

/-! ## Helper lemmas -/

/-- Redis `SET NX` on an absent (or expired) key writes the key. -/
theorem set_nx_of_absent (s : RedisState) (now : Nat) (key v : String) (ex : Option Nat)
    (h : s.get now key = none) :
    s.set now key v true ex =
      (true, { s with kv := fun k => if k = key then some (v, ex.map (now + ·)) else s.kv k }) := by
  simp [RedisState.set, h]

/-- Redis `SET NX` on a live key is refused and leaves the store as it
was. -/
theorem set_nx_of_present (s : RedisState) (now : Nat) (key v : String) (ex : Option Nat)
    (h : (s.get now key).isSome = true) :
    s.set now key v true ex = (false, s) := by
  simp [RedisState.set, h]

/-! ## Claim C1 -/

/-- Claim C1: mutual exclusion of file locks.  Acquisition succeeds only
if the lock key is absent; the lock binding has at most one owner at any
instant; after task A successfully claims `p` at `now` with TTL `tsec`,
A is the owner at every instant before the TTL expires; and a claim by
`B ≠ A` issued while A owns the lock fails and reports A as the owner. -/
theorem claim_file_mutual_exclusion
    (s : RedisState) (now : Nat) (A B p : String) (tsec : Nat) :
    ((claim_file s now B p tsec).1.success = true → s.get_lock_owner now p = none)
    ∧ (∀ x y, s.get_lock_owner now p = some x → s.get_lock_owner now p = some y → x = y)
    ∧ ((claim_file s now A p tsec).1.success = true →
        ∀ now', now' < now + tsec →
          ((claim_file s now A p tsec).2).get_lock_owner now' p = some A)
    ∧ (s.get_lock_owner now p = some A → B ≠ A →
        (claim_file s now B p tsec).1 =
          { success := false, error := some ("File locked by task " ++ A),
            locked := some false }) := by
  have hone : ∀ x y : String, s.get_lock_owner now p = some x →
      s.get_lock_owner now p = some y → x = y := by
    intro x y hx hy
    rw [hx] at hy
    exact Option.some_inj.mp hy
  by_cases hk : (s.get now ("lock:file:" ++ p)).isSome
  · refine ⟨?_, hone, ?_, ?_⟩
    · intro hsucc
      simp [claim_file, set_nx_of_present s now _ _ _ hk] at hsucc
    · intro hsucc
      simp [claim_file, set_nx_of_present s now _ _ _ hk] at hsucc
    · intro hown hne
      have hA : s.get now ("lock:file:" ++ p) = some A := hown
      simp [claim_file, set_nx_of_present s now _ _ _ hk, hA, pyShow]
  · have hnone : s.get now ("lock:file:" ++ p) = none :=
      Option.not_isSome_iff_eq_none.mp hk
    refine ⟨?_, hone, ?_, ?_⟩
    · intro _
      exact hnone
    · intro _ now' hlt
      simp [claim_file, set_nx_of_absent s now _ _ _ hnone, RedisState.get_lock_owner,
        RedisState.get, RedisState.publish, hlt]
    · intro hown
      rw [RedisState.get_lock_owner, hnone] at hown
      exact absurd hown (by simp)

/-- Witness for claim C1: on an empty store, task `T1` claims `calc.py`
(timeout 60) and becomes the owner; the claim by `T2` at the same instant
fails and reports `T1`. -/
theorem claim_file_mutual_exclusion_witness :
    ((claim_file RedisState.empty 0 "T1" "calc.py" 60).2).get_lock_owner 0 "calc.py"
        = some "T1"
    ∧ (claim_file ((claim_file RedisState.empty 0 "T1" "calc.py" 60).2)
          0 "T2" "calc.py" 60).1 =
        { success := false, error := some ("File locked by task " ++ "T1"),
          locked := some false } := by
  refine ⟨by decide, ?_⟩
  exact (claim_file_mutual_exclusion
    ((claim_file RedisState.empty 0 "T1" "calc.py" 60).2)
    0 "T1" "T2" "calc.py" 60).2.2.2 (by decide) (by decide)

/-! ## Claim C3 -/

/-- Claim C3: `release_file` succeeds exactly when the caller owns the
lock; when the lock is absent or owned by a different task the call
fails, the store (and so the lock binding for `p`) is left completely
unchanged, and a distinct, reported error is produced (naming the actual
owner when there is one, `Lock not held` when there is none). -/
theorem release_file_owner_check (s : RedisState) (now : Nat) (t p : String) :
    ((release_file s now t p).1.success = true ↔ s.get now ("lock:file:" ++ p) = some t)
    ∧ (s.get now ("lock:file:" ++ p) ≠ some t →
        (release_file s now t p).2 = s ∧ (release_file s now t p).1.error.isSome = true)
    ∧ (∀ o, s.get now ("lock:file:" ++ p) = some o → o ≠ t → o ≠ "" →
        (release_file s now t p).1.error =
          some ("Cannot release lock owned by task " ++ o))
    ∧ (s.get now ("lock:file:" ++ p) = none →
        (release_file s now t p).1.error = some "Lock not held") := by
  by_cases h : s.get now ("lock:file:" ++ p) = some t
  · refine ⟨?_, ?_, ?_, ?_⟩
    · simp [release_file, h]
    · intro hne
      exact absurd h hne
    · intro o ho hot _
      rw [h] at ho
      exact absurd (Option.some_inj.mp ho).symm hot
    · intro hn
      rw [hn] at h
      exact absurd h (by simp)
  · refine ⟨?_, ?_, ?_, ?_⟩
    · simp [release_file, h]
    · intro _
      constructor
      · simp [release_file, h]
      · simp [release_file, h]
    · intro o ho hot hoe
      simp [release_file, h, ho, hoe, hot]
    · intro hn
      simp [release_file, h, hn]

/-- Witness for claim C3: with `f.py` locked by `other`, a release by
`T1` fails with the distinct owner-naming error and leaves the store
unchanged. -/
theorem release_file_owner_check_witness :
    (release_file ((claim_file RedisState.empty 0 "other" "f.py" 60).2) 0 "T1" "f.py").2
        = (claim_file RedisState.empty 0 "other" "f.py" 60).2
    ∧ (release_file ((claim_file RedisState.empty 0 "other" "f.py" 60).2) 0 "T1" "f.py").1.error
        = some ("Cannot release lock owned by task " ++ "other") := by
  have h := release_file_owner_check
    ((claim_file RedisState.empty 0 "other" "f.py" 60).2) 0 "T1" "f.py"
  exact ⟨(h.2.1 (by decide)).1, h.2.2.1 "other" (by decide) (by decide) (by decide)⟩

/-! ## Claim C2 -/

/-- Claim C2 (code bug): the traversal defense is a string-prefix check on
the rendered resolved path.  The cited input `../../etc/passwd` resolves
to `/app/etc/passwd` and is duly rejected with the distinct
path-traversal `ValueError`; but `../../workspace-evil/x` resolves to
`/app/workspace-evil/x`, which escapes the workspace root
(`/app/workspace` is not a component-wise ancestor) yet passes the check
because `"/app/workspace"` is a string prefix of
`"/app/workspace-evil/x"` — the write succeeds and creates a file outside
the workspace root, contradicting the claim's universal rejection. -/
theorem write_file_traversal_prefix_bug :
    write_file RedisState.empty Fs.empty 0 "tA" "../../etc/passwd" "x"
        = .error (.valueError "Path traversal attempt detected: ../../etc/passwd")
    ∧ resolveJoined tasks_root "../../workspace-evil/x" = ["app", "workspace-evil", "x"]
    ∧ underWorkspaceRoot ["app", "workspace-evil", "x"] = false
    ∧ (write_file RedisState.empty Fs.empty 0 "tA" "../../workspace-evil/x" "x").toOption.map
        (fun r => (r.2.2 ["app", "workspace-evil", "x"], r.1.bytes)) = some (some "x", 1) := by
  refine ⟨by rfl, by decide, by decide, by rfl⟩

/-! ## Claim C6 -/

/-- A cached task row used to satisfy the read path's task-existence
check in the cross-task scenario. -/
def sampleRowB : TaskRow :=
  { id := "tB", title := "demo", description := "", status := "pending",
    assigned_agent_id := none, final_complexity := none,
    created_at := 0, updated_at := 1 }

/-- Claim C6 (code bug): file resolution ignores the task id — both
`write_file` and `read_resource` resolve the relative path under the
shared directory `workspace_root / "tasks"`, so for the distinct tasks
`tA ≠ tB` the same relative path `f.txt` denotes the same location:
content written by `tA` is exactly what `tB` reads back, contradicting
the claim (and the provider's own `task-scoped` docstring). -/
theorem write_read_cross_task_same_location :
    "tA" ≠ "tB"
    ∧ (write_file (RedisState.empty.set_task 0 "tB" sampleRowB) Fs.empty 0
          "tA" "f.txt" "c").toOption.map
        (fun r => read_resource r.2.1 r.2.2 0 "workspace://tB/f.txt") = some (.ok "c") := by
  refine ⟨by decide, by rfl⟩

/-! ## Claim C4 -/

/-- A write operation whose statement succeeds, inserting a row. -/
def insertRowStmt (k v : String) : Stmt := fun db => some ((k, v) :: db)

/-- A write operation whose statement raises on execution. -/
def failingStmt : Stmt := fun _ => none

/-- Claim C4 (code bug): a healthy batch persists, but in a batch
containing one failing statement the failure — although caught by the
per-statement `try/except` — aborts the enclosing PostgreSQL transaction,
so neither the sibling statement before nor the one after the failure
takes durable effect (the whole batch rolls back at commit).  Future
batches (fresh transactions) do persist. -/
theorem push_batch_failure_not_isolated :
    (sync_to_postgres_iteration [insertRowStmt "a" "1"] ([] : DbState)).2 = [("a", "1")]
    ∧ (sync_to_postgres_iteration
        [insertRowStmt "a" "1", failingStmt, insertRowStmt "b" "2"] ([] : DbState)).2 = []
    ∧ (sync_to_postgres_iteration [insertRowStmt "c" "3"] ([] : DbState)).2 = [("c", "3")] := by
  refine ⟨by rfl, by rfl, by rfl⟩

/-! ## Claim C8 -/

/-- Claim C8: `RedisAdapter` defines no method named `keys`, so
`TaskResourceProvider.list_resources` — whose first adapter call is
`self.redis.keys("task:*")` — raises `AttributeError` for every cache
state and never returns the resource descriptors. -/
theorem list_resources_always_attribute_error :
    "keys" ∉ redisAdapterMethodNames
    ∧ ∀ (s : RedisState) (now : Nat),
        list_resources s now =
          .error (.attributeError "'RedisAdapter' object has no attribute 'keys'") := by
  exact ⟨by decide, fun s now => rfl⟩

/-- Looking a key up in a dictionary is unaffected by appending another
binding when the key was already present. -/
theorem Entry.find_append_of_some (e : Entry) (x : String × String) (k v : String)
    (h : Entry.find e k = some v) : Entry.find (e ++ [x]) k = some v := by
  induction e with
  | nil => simp [Entry.find] at h
  | cons hd tl ih =>
    obtain ⟨k', v'⟩ := hd
    by_cases hk : k' = k
    · simp [Entry.find, hk] at h ⊢
      exact h
    · simp only [List.cons_append, Entry.find, if_neg hk] at h ⊢
      exact ih h


/-- Appending a binding for an absent key makes lookup return it. -/
theorem Entry.find_append_absent (e : Entry) (k v : String)
    (h : Entry.find e k = none) : Entry.find (e ++ [(k, v)]) k = some v := by
  induction e with
  | nil => simp [Entry.find]
  | cons hd tl ih =>
    obtain ⟨k', v'⟩ := hd
    by_cases hk : k' = k
    · simp [Entry.find, hk] at h
    · simp only [List.cons_append, Entry.find, if_neg hk] at h ⊢
      exact ih h


/-! ## Claim C7 -/

/-- Claim C7: after `log_step(taskId, entry)` succeeds, reading
`logs://{taskId}` at the same instant returns the appended entry at the
head of the log list; the appended entry has `timestamp` and `task_id`
populated even when the caller omitted them, and every field the caller
did supply is left exactly as given.  The parsing hypotheses hold for
any task id without a slash and are discharged concretely in the
witness. -/
theorem log_step_read_back (s : RedisState) (now : Nat) (t : String) (e : Entry)
    (hdrop : pyDrop ("logs://" ++ t) 7 = t)
    (hsplit : pySplitSlash t = [t])
    (hpre : pyStartsWith ("logs://" ++ t) "logs://" = true) :
    (log_step s now t e).1.success = true
    ∧ logs_read_resource (log_step s now t e).2 now ("logs://" ++ t) =
        .ok (.hist t (((log_step s now t e).2).get_logs now t))
    ∧ (((log_step s now t e).2).get_logs now t).head? = some ((log_step s now t e).1.step)
    ∧ (Entry.find (log_step s now t e).1.step "timestamp").isSome = true
    ∧ (Entry.find (log_step s now t e).1.step "task_id").isSome = true
    ∧ (∀ k v, Entry.find e k = some v → Entry.find (log_step s now t e).1.step k = some v) := by
  refine ⟨by simp [log_step], ?_, ?_, ?_, ?_, ?_⟩
  · simp only [logs_read_resource, hpre, hdrop, hsplit, Bool.not_true]
    rfl
  · simp only [log_step, append_log, RedisState.get_logs, RedisState.liveList,
      RedisState.publish, RedisState.expireList, RedisState.lpush]
    simp [Nat.lt_add_of_pos_right]
  · simp only [log_step]
    by_cases h1 : (Entry.find e "timestamp").isSome
    · obtain ⟨v1, hv1⟩ := Option.isSome_iff_exists.mp h1
      simp only [h1, if_true]
      by_cases h2 : (Entry.find e "task_id").isSome
      · simp [h2, h1]
      · simp only [h2, Bool.false_eq_true, if_false]
        simp [Entry.find_append_of_some e _ _ _ hv1]
    · simp only [h1, Bool.false_eq_true, if_false]
      have hnone : Entry.find e "timestamp" = none :=
        Option.not_isSome_iff_eq_none.mp h1
      have hbase : Entry.find (e ++ [("timestamp", isoformat now)]) "timestamp"
          = some (isoformat now) := Entry.find_append_absent e _ _ hnone
      by_cases h2 : (Entry.find (e ++ [("timestamp", isoformat now)]) "task_id").isSome
      · simp [h2, hbase]
      · simp only [h2, Bool.false_eq_true, if_false]
        show (Entry.find ((e ++ [("timestamp", isoformat now)]) ++ [("task_id", t)])
          "timestamp").isSome = true
        rw [Entry.find_append_of_some _ _ _ _ hbase]
        rfl
  · simp only [log_step]
    by_cases h1 : (Entry.find e "timestamp").isSome
    · simp only [h1, if_true]
      by_cases h2 : (Entry.find e "task_id").isSome
      · simp [h2]
      · have hnone : Entry.find e "task_id" = none :=
          Option.not_isSome_iff_eq_none.mp h2
        simp [h2, Entry.find_append_absent e _ _ hnone]
    · simp only [h1, Bool.false_eq_true, if_false]
      by_cases h2 : (Entry.find (e ++ [("timestamp", isoformat now)]) "task_id").isSome
      · simp [h2]
      · simp only [h2, Bool.false_eq_true, if_false]
        have hnone : Entry.find (e ++ [("timestamp", isoformat now)]) "task_id" = none :=
          Option.not_isSome_iff_eq_none.mp h2
        show (Entry.find ((e ++ [("timestamp", isoformat now)]) ++ [("task_id", t)])
          "task_id").isSome = true
        rw [Entry.find_append_absent (e ++ [("timestamp", isoformat now)]) "task_id" t hnone]
        rfl
  · intro k v hkv
    simp only [log_step]
    by_cases h1 : (Entry.find e "timestamp").isSome
    · simp only [h1, if_true]
      by_cases h2 : (Entry.find e "task_id").isSome
      · simp [h2, hkv]
      · simp [h2, Entry.find_append_of_some e _ _ _ hkv]
    · simp only [h1, Bool.false_eq_true, if_false]
      have hstep1 : Entry.find (e ++ [("timestamp", isoformat now)]) k = some v :=
        Entry.find_append_of_some e _ _ _ hkv
      by_cases h2 : (Entry.find (e ++ [("timestamp", isoformat now)]) "task_id").isSome
      · simp [h2]
        simpa using hstep1
      · simp only [h2, Bool.false_eq_true, if_false]
        show Entry.find ((e ++ [("timestamp", isoformat now)]) ++ [("task_id", t)]) k = some v
        exact Entry.find_append_of_some _ _ _ _ hstep1

/-- Witness for claim C7: a concrete `log_step` on the empty store at
instant 5 for task `task-1` with entry `{action: x}`: the entry is read
back at the head with `timestamp`/`task_id` stamped and `action`
preserved. -/
theorem log_step_read_back_witness :
    (((log_step RedisState.empty 5 "task-1" [("action", "x")]).2).get_logs 5 "task-1").head?
      = some ((log_step RedisState.empty 5 "task-1" [("action", "x")]).1.step)
    ∧ (Entry.find (log_step RedisState.empty 5 "task-1" [("action", "x")]).1.step
        "timestamp").isSome = true
    ∧ (Entry.find (log_step RedisState.empty 5 "task-1" [("action", "x")]).1.step
        "task_id").isSome = true
    ∧ Entry.find (log_step RedisState.empty 5 "task-1" [("action", "x")]).1.step "action"
      = some "x" := by
  have h := log_step_read_back RedisState.empty 5 "task-1" [("action", "x")]
    (by decide) (by decide) (by decide)
  exact ⟨h.2.2.1, h.2.2.2.1, h.2.2.2.2.1, h.2.2.2.2.2 "action" "x" (by decide)⟩

/-! ## Claim C10 -/

/-- A sequence of `append_log` calls for one task, in order. -/
def append_all (s : RedisState) (now : Nat) (t : String) (es : List Entry) : RedisState :=
  es.foldl (fun s e => append_log s now t e) s


/-- Effect of a sequence of appends on the task's log list: the stored
list is the reverse of the append order (most recent first), and the key
carries the 3600s TTL as soon as one append happened. -/
theorem append_all_lists (now : Nat) (t : String) (es : List Entry) :
    ∀ s : RedisState,
      (append_all s now t es).lists ("logs:" ++ t) = es.reverse ++ s.lists ("logs:" ++ t)
      ∧ (append_all s now t es).listExp ("logs:" ++ t)
          = if es.isEmpty then s.listExp ("logs:" ++ t) else some (now + 3600) := by
  induction es with
  | nil =>
    intro s
    simp [append_all]
  | cons e es' ih =>
    intro s
    have h := ih (append_log s now t e)
    have hstep : append_all s now t (e :: es') = append_all (append_log s now t e) now t es' := rfl
    constructor
    · rw [hstep, h.1]
      simp [append_log, RedisState.lpush, RedisState.expireList, RedisState.publish]
    · rw [hstep, h.2]
      cases es' <;>
        simp [append_log, RedisState.lpush, RedisState.expireList, RedisState.publish]


/-- Claim C10: reading `logs://{taskId}` after any sequence of appends
returns at most the 100 most recently appended entries, most recent
first (`LRANGE 0 99` over the `LPUSH`-built list), however many entries
were appended.  The parsing hypotheses hold for any task id without a
slash and are discharged concretely in the witness. -/
theorem logs_read_bounded_recent_first (es : List Entry) (t : String) (now : Nat)
    (hdrop : pyDrop ("logs://" ++ t) 7 = t)
    (hsplit : pySplitSlash t = [t])
    (hpre : pyStartsWith ("logs://" ++ t) "logs://" = true) :
    logs_read_resource (append_all RedisState.empty now t es) now ("logs://" ++ t)
      = .ok (.hist t (es.reverse.take 100))
    ∧ (es.reverse.take 100).length ≤ 100 := by
  have hl := append_all_lists now t es RedisState.empty
  have hlogs : (append_all RedisState.empty now t es).get_logs now t = es.reverse.take 100 := by
    unfold RedisState.get_logs RedisState.liveList
    by_cases hes : es.isEmpty
    · have h0 : es = [] := List.isEmpty_iff.mp hes
      subst h0
      simp [append_all, RedisState.empty]
    · have hne : es.isEmpty = false := by simpa using hes
      rw [hl.2, hne]
      simp only [Bool.false_eq_true, if_false]
      rw [hl.1]
      simp [RedisState.empty, Nat.lt_add_of_pos_right]
  refine ⟨?_, ?_⟩
  · simp only [logs_read_resource, hpre, Bool.not_true, hdrop, hsplit,
      Bool.false_eq_true, if_false]
    rw [hlogs]
  · exact List.length_take_le 100 _

/-- Witness for claim C10: three appends for `task-1` read back most
recent first. -/
theorem logs_read_bounded_recent_first_witness :
    logs_read_resource (append_all RedisState.empty 0 "task-1"
        [[("n", "1")], [("n", "2")], [("n", "3")]]) 0 ("logs://" ++ "task-1")
      = .ok (.hist "task-1" [[("n", "3")], [("n", "2")], [("n", "1")]]) := by
  have h := logs_read_bounded_recent_first [[("n", "1")], [("n", "2")], [("n", "3")]]
    "task-1" 0 (by decide) (by decide) (by decide)
  exact h.1.trans (by rfl)

/-- Splitting never yields an empty list of parts. -/
theorem splitChars_ne_nil (sep : Char) (l : List Char) : splitChars sep l ≠ [] := by
  cases l with
  | nil => simp [splitChars]
  | cons c rest =>
    unfold splitChars
    by_cases h : c = sep
    · simp [h]
    · simp only [if_neg h]
      cases hs : splitChars sep rest <;> simp


/-- Splitting a string on `/` never yields an empty list of parts. -/
theorem pySplitSlash_ne_nil (s : String) : pySplitSlash s ≠ [] := by
  unfold pySplitSlash
  intro h
  exact splitChars_ne_nil '/' s.data (List.map_eq_nil_iff.mp h)


/-! ## Claim C9 -/

/-- Claim C9: task-existence check asymmetry.  With `t` absent from the
task cache, `file_read(t, p)` fails with the task-not-found error, while
`file_write(t, p, c)` performs no task-existence check: it succeeds,
creates the file at the resolved location, and records `p` in the task's
file set.  The parsing/safety hypotheses hold for any slash-free task id
and traversal-safe path, and the write-path side conditions are that `p`
is not locked by another task. -/
theorem task_check_asymmetry (s : RedisState) (fs : Fs) (now : Nat) (t p c : String)
    (habs : s.get_task now t = none)
    (hdrop : pyDrop ("workspace://" ++ t ++ "/" ++ p) 12 = t ++ "/" ++ p)
    (hsplit : pySplitSlash (t ++ "/" ++ p) = t :: pySplitSlash p)
    (hjoin : joinSlash (pySplitSlash p) = p)
    (hpre : pyStartsWith ("workspace://" ++ t ++ "/" ++ p) "workspace://" = true)
    (hsafe : passesTraversalCheck (resolveJoined tasks_root p) = true)
    (hnolock : s.get_lock_owner now p = none) :
    file_read s fs now t p = { success := false, error := some ("Task not found: " ++ t) }
    ∧ (file_write s fs now t p c).1 = { success := true }
    ∧ (file_write s fs now t p c).2.2 (resolveJoined tasks_root p) = some c
    ∧ p ∈ ((file_write s fs now t p c).2.1).get_task_files now t := by
  refine ⟨?_, ?_, ?_, ?_⟩
  · unfold file_read read_resource
    cases hq : pySplitSlash p with
    | nil => exact absurd hq (pySplitSlash_ne_nil p)
    | cons a as =>
      rw [hq] at hsplit
      rw [hq] at hjoin
      simp only [hpre, Bool.not_true, Bool.false_eq_true, if_false, hdrop, hsplit, hjoin, habs,
        Option.isNone_none, if_true]
      rfl
  · unfold file_write
    rw [hnolock]
    unfold write_file
    simp [hsafe]
  · unfold file_write
    rw [hnolock]
    unfold write_file
    simp [hsafe]
  · unfold file_write
    rw [hnolock]
    unfold write_file
    simp only [hsafe, Bool.not_true, Bool.false_eq_true, if_false]
    unfold RedisState.get_task_files RedisState.publish RedisState.add_task_file
      RedisState.expireSet RedisState.sadd
    simp only [if_true]
    have hlt : now < now + task_cache_ttl := Nat.lt_add_of_pos_right (by decide)
    simp only [if_pos hlt]
    by_cases hmem : p ∈ s.sets ("task:" ++ t ++ ":files")
    · simp [hmem]
    · simp [hmem]

/-- Witness for claim C9: with no task `ghost` cached, reading `a.txt`
fails with `Task not found: ghost` while writing succeeds, stores the
content, and records the path in the file set. -/
theorem task_check_asymmetry_witness :
    file_read RedisState.empty Fs.empty 0 "ghost" "a.txt"
      = { success := false, error := some ("Task not found: " ++ "ghost") }
    ∧ (file_write RedisState.empty Fs.empty 0 "ghost" "a.txt" "hi").1 = { success := true }
    ∧ (file_write RedisState.empty Fs.empty 0 "ghost" "a.txt" "hi").2.2
        (resolveJoined tasks_root "a.txt") = some "hi"
    ∧ "a.txt" ∈ ((file_write RedisState.empty Fs.empty 0 "ghost" "a.txt" "hi").2.1).get_task_files
        0 "ghost" := by
  exact task_check_asymmetry RedisState.empty Fs.empty 0 "ghost" "a.txt" "hi"
    (by decide) (by decide) (by decide) (by decide) (by decide) (by decide) (by decide)

/-! ## Claim C5 -/

/-- Insertion keeps the same multiset of rows. -/
theorem insertByDesc_perm (r : TaskRow) (l : List TaskRow) :
    List.Perm (insertByDesc r l) (r :: l) := by
  induction l with
  | nil => simp [insertByDesc]
  | cons x xs ih =>
    unfold insertByDesc
    by_cases h : x.updated_at ≤ r.updated_at
    · simp [h]
    · simp only [if_neg h]
      exact (ih.cons x).trans (List.Perm.swap r x xs)

/-- Sorting keeps the same multiset of rows. -/
theorem sortByUpdatedDesc_perm (l : List TaskRow) :
    List.Perm (sortByUpdatedDesc l) l := by
  induction l with
  | nil => simp [sortByUpdatedDesc]
  | cons x xs ih =>
    exact (insertByDesc_perm x (sortByUpdatedDesc xs)).trans (ih.cons x)

/-- Sorting preserves length. -/
theorem sortByUpdatedDesc_length (l : List TaskRow) :
    (sortByUpdatedDesc l).length = l.length :=
  (sortByUpdatedDesc_perm l).length_eq

/-- Insertion preserves descending order of `updated_at`. -/
theorem insertByDesc_sorted (r : TaskRow) (l : List TaskRow)
    (h : l.Pairwise (fun a b => b.updated_at ≤ a.updated_at)) :
    (insertByDesc r l).Pairwise (fun a b => b.updated_at ≤ a.updated_at) := by
  induction l with
  | nil => simp [insertByDesc]
  | cons x xs ih =>
    unfold insertByDesc
    by_cases hx : x.updated_at ≤ r.updated_at
    · simp only [if_pos hx]
      refine List.Pairwise.cons ?_ h
      intro y hy
      rcases List.mem_cons.mp hy with hyx | hyxs
      · exact hyx ▸ hx
      · exact le_trans ((List.pairwise_cons.mp h).1 y hyxs) hx
    · simp only [if_neg hx]
      have hrx : r.updated_at ≤ x.updated_at := le_of_lt (lt_of_not_le hx)
      obtain ⟨hx1, hx2⟩ := List.pairwise_cons.mp h
      refine List.Pairwise.cons ?_ (ih hx2)
      intro y hy
      rcases List.mem_cons.mp ((insertByDesc_perm r xs).mem_iff.mp hy) with hyr | hyxs
      · exact hyr ▸ hrx
      · exact hx1 y hyxs

/-- The sort produces a list descending in `updated_at`. -/
theorem sortByUpdatedDesc_sorted (l : List TaskRow) :
    (sortByUpdatedDesc l).Pairwise (fun a b => b.updated_at ≤ a.updated_at) := by
  induction l with
  | nil => simp [sortByUpdatedDesc]
  | cons x xs ih => exact insertByDesc_sorted x _ ih

/-- Distinct task ids give distinct cache keys. -/
theorem taskKeyInj (a b : String) (h : a ≠ b) : "task:" ++ a ≠ "task:" ++ b := by
  intro hc
  apply h
  have hd := congrArg String.data hc
  rw [String.data_append, String.data_append] at hd
  have := List.append_cancel_left hd
  ext1
  exact this

/-- Caching a batch of rows leaves unrelated keys untouched. -/
theorem foldl_set_task_ne (rows : List TaskRow) (now : Nat) (key : String)
    (h : ∀ r ∈ rows, "task:" ++ r.id ≠ key) :
    ∀ s : RedisState,
      (rows.foldl (fun s r => s.set_task now r.id r) s).taskKv key = s.taskKv key := by
  induction rows with
  | nil => intro s; rfl
  | cons x xs ih =>
    intro s
    have hx := h x (List.mem_cons_self x xs)
    have := ih (fun r hr => h r (List.mem_cons_of_mem x hr)) (s.set_task now x.id x)
    rw [List.foldl_cons, this]
    simp [RedisState.set_task, if_neg]
    intro hkey
    exact absurd hkey.symm hx

/-- Caching a batch of rows with distinct ids stores each row under its
key with the standard TTL. -/
theorem foldl_set_task_mem (rows : List TaskRow) (now : Nat) (r : TaskRow)
    (hmem : r ∈ rows) (hnodup : (rows.map TaskRow.id).Nodup) :
    ∀ s : RedisState,
      (rows.foldl (fun s r => s.set_task now r.id r) s).taskKv ("task:" ++ r.id)
        = some (r, now + task_cache_ttl) := by
  induction rows with
  | nil => exact absurd hmem (List.not_mem_nil r)
  | cons x xs ih =>
    intro s
    rcases List.mem_cons.mp hmem with hrx | hrxs
    · subst hrx
      have hid : r.id ∉ xs.map TaskRow.id := (List.nodup_cons.mp hnodup).1
      have hne : ∀ y ∈ xs, "task:" ++ y.id ≠ "task:" ++ r.id := by
        intro y hy
        refine taskKeyInj _ _ ?_
        intro hc
        exact hid (hc ▸ List.mem_map_of_mem TaskRow.id hy)
      rw [List.foldl_cons, foldl_set_task_ne xs now _ hne]
      simp [RedisState.set_task]
    · have hnd := (List.nodup_cons.mp hnodup).2
      rw [List.foldl_cons]
      exact ih hrxs hnd (s.set_task now x.id x)

/-- Claim C5, amended: when at most `cap` rows changed since the
watermark, one pull iteration writes every changed row into the cache
with the standard TTL (`task_cache_ttl`), the row is immediately
readable, and the watermark advances to at least every changed row's
`updatedAt` (it becomes the newest seen).  The unconditional claim is
refuted by `pull_loop_skips_rows_beyond_cap`: with more than `cap`
changed rows the `ORDER BY updated_at DESC LIMIT cap` query keeps only
the newest `cap`, and advancing the watermark past the skipped older
rows makes them permanently invisible to later iterations. -/
theorem pull_iteration_caches_changed_rows
    (db : List TaskRow) (st : SyncState) (now cap : Nat)
    (hnodup : (db.map TaskRow.id).Nodup)
    (hlen : (db.filter (fun r => st.last_sync_timestamp < r.updated_at)).length ≤ cap) :
    ∀ r ∈ db, st.last_sync_timestamp < r.updated_at →
      (sync_from_postgres_iteration db st now cap).redis.taskKv ("task:" ++ r.id)
          = some (r, now + task_cache_ttl)
      ∧ (sync_from_postgres_iteration db st now cap).redis.get_task now r.id = some r
      ∧ r.updated_at ≤ (sync_from_postgres_iteration db st now cap).last_sync_timestamp := by
  intro r hr hlt
  have hrF : r ∈ db.filter (fun r => st.last_sync_timestamp < r.updated_at) :=
    List.mem_filter.mpr ⟨hr, by simpa using hlt⟩
  have hFnodup :
      ((db.filter (fun r => st.last_sync_timestamp < r.updated_at)).map TaskRow.id).Nodup :=
    hnodup.sublist ((List.filter_sublist db).map TaskRow.id)
  set F := db.filter (fun r => st.last_sync_timestamp < r.updated_at) with hF
  have hperm := sortByUpdatedDesc_perm F
  have hfetch : fetchChangedSince db st.last_sync_timestamp cap = sortByUpdatedDesc F := by
    unfold fetchChangedSince
    rw [← hF]
    exact List.take_of_length_le (by rw [sortByUpdatedDesc_length]; exact hlen)
  have hrmem : r ∈ sortByUpdatedDesc F := hperm.mem_iff.mpr hrF
  have hrowsnodup : ((sortByUpdatedDesc F).map TaskRow.id).Nodup :=
    ((hperm.map TaskRow.id).nodup_iff).mpr hFnodup
  have hsorted := sortByUpdatedDesc_sorted F
  cases hs : sortByUpdatedDesc F with
  | nil =>
    rw [hs] at hrmem
    exact absurd hrmem (List.not_mem_nil r)
  | cons r0 rest =>
    have hiter : sync_from_postgres_iteration db st now cap =
        { redis := (r0 :: rest).foldl (fun s r => s.set_task now r.id r) st.redis
          last_sync_timestamp := r0.updated_at } := by
      unfold sync_from_postgres_iteration
      rw [hfetch, hs]
    rw [hs] at hrmem hrowsnodup hsorted
    have h1 := foldl_set_task_mem (r0 :: rest) now r hrmem hrowsnodup st.redis
    refine ⟨by rw [hiter]; exact h1, ?_, ?_⟩
    · rw [hiter]
      show RedisState.get_task _ now r.id = some r
      unfold RedisState.get_task
      rw [h1]
      show (if now < now + task_cache_ttl then some r else none) = some r
      rw [if_pos (Nat.lt_add_of_pos_right (by decide : 0 < task_cache_ttl))]
    · rw [hiter]
      rcases List.mem_cons.mp hrmem with hrr0 | hrrest
      · exact le_of_eq (congrArg TaskRow.updated_at hrr0)
      · exact (List.pairwise_cons.mp hsorted).1 r hrrest

/-- A family of task rows with pairwise distinct ids and `updated_at`
values `i + 1`. -/
def mkRow (i : Nat) : TaskRow :=
  { id := String.mk (List.replicate i 'a'), title := "", description := "",
    status := "pending", assigned_agent_id := none, final_complexity := none,
    created_at := 0, updated_at := i + 1 }

/-- A durable store holding 101 rows, one more than the batch cap. -/
def db101 : List TaskRow := (List.range 101).map mkRow

/-- The pull state at boot: empty cache, watermark 0. -/
def syncStart : SyncState := { redis := RedisState.empty, last_sync_timestamp := 0 }

/-- Counterexample for claim C5 as stated: all 101 rows of `db101` have
`updatedAt` above the watermark 0, yet after one pull iteration (cap
100) the oldest changed row (`mkRow 0`, `updatedAt = 1`) is not in the
cache while the watermark has advanced to 101; the post-iteration state
is a fixpoint, so that row is never fetched by any later iteration —
it is permanently skipped. -/
theorem pull_loop_skips_rows_beyond_cap :
    (db101.filter (fun r => syncStart.last_sync_timestamp < r.updated_at)).length = 101
    ∧ mkRow 0 ∈ db101
    ∧ syncStart.last_sync_timestamp < (mkRow 0).updated_at
    ∧ (sync_from_postgres_iteration db101 syncStart 0).last_sync_timestamp = 101
    ∧ (sync_from_postgres_iteration db101 syncStart 0).redis.get_task 0 (mkRow 0).id = none
    ∧ sync_from_postgres_iteration db101 (sync_from_postgres_iteration db101 syncStart 0) 0
        = sync_from_postgres_iteration db101 syncStart 0 := by
  refine ⟨by decide, by decide, by decide, by rfl, by rfl, by rfl⟩

/-- Witness for the amended claim C5: with two changed rows and cap 100,
each row (here `mkRow 1`) is cached and readable after one iteration and
the watermark covers its `updatedAt`. -/
theorem pull_iteration_caches_changed_rows_witness :
    (sync_from_postgres_iteration [mkRow 1, mkRow 2] syncStart 0 100).redis.get_task 0
        (mkRow 1).id = some (mkRow 1)
    ∧ (mkRow 1).updated_at
        ≤ (sync_from_postgres_iteration [mkRow 1, mkRow 2] syncStart 0 100).last_sync_timestamp := by
  have h := pull_iteration_caches_changed_rows [mkRow 1, mkRow 2] syncStart 0 100
    (by decide) (by decide) (mkRow 1) (by decide) (by decide)
  exact ⟨h.2.1, h.2.2⟩
